import Mathlib

/-!
# Verification of the data-access service layer of a blog platform

Shallow embedding of the generic CRUD service base class (`src/api/base/index.ts`,
class `BaseService`) and its Options-service specialization
(`src/api/options/index.ts`, class `OptionsService`).

Modelling conventions:
* JavaScript promises that either resolve or reject are modelled by
  `Except String α`: `.error msg` is a rejection carrying the error message,
  `.ok v` a resolution.  A synchronous `throw` from a non-async method is
  likewise an `Except.error` result of the method itself.
* The underlying document store (`feathers-nedb` / NeDB) is an external
  collaborator; each operation takes the corresponding store behaviour as a
  function argument (e.g. `insert : Doc → Option Params → Except String Doc`).
* `JSON.stringify`-based map keys are modelled by the serialized values
  themselves (two requests collide exactly when their stamped data and params
  are equal, which models equal JSON serializations).
* JavaScript `Map` insertion-order semantics are modelled by an association
  list with `mapSet` / `mapLookup` (`set` on an existing key replaces the
  value but keeps the original position, as JS `Map.prototype.set` does).
* `new Date()` timestamps are modelled by an explicit clock value `now : Nat`;
  calls issued in the same tick share the same stamp.
* Single-threaded cooperative concurrency: the synchronous issuance of several
  un-awaited `create` calls followed by the asynchronous drain of the creation
  queue is modelled by `runCreateAll` / `drainQueue`.  The completion timing of
  the fire-and-forget counter writes of the incremental allocator (the code
  does not await them: `await newId > 0 ? ... : ...` parses as
  `((await newId) > 0) ? ... : ...`) is modelled by an explicit schedule:
  `sched.headD 0` pending options operations complete before each successive
  allocation reads the counter.
-/

/-- `resultCode` of the uniform Result Envelope (`'OK' | 'Error'`). -/
inductive ResultCode where
  | OK
  | Error
deriving DecidableEq, Repr

/-- The Result Envelope `IReturnData` from `models/api`: the uniform return
shape of every service operation, with `resultCode`, optional `payload` and
optional `errorMessage`. -/
structure IReturnData (α : Type) where
  resultCode : ResultCode
  payload : Option α
  errorMessage : Option String
deriving DecidableEq, Repr

/-- A document: an opaque `body` payload plus the fields the service layer
itself reads or writes (`_id`, `id`, `internal`, `created`, `updated`). -/
structure Doc where
  body : String
  _id : Option String := none
  id : Option Int := none
  internal : Option Bool := none
  created : Option Nat := none
  updated : Option Nat := none
deriving DecidableEq, Repr

/-- The `$sort` value of a query: a field name with a direction
(`{ id: -1 }` is `⟨"id", -1⟩`). -/
structure SortSpec where
  field : String
  dir : Int
deriving DecidableEq, Repr

/-- A filter value for the `internal` field of a query: the service layer
writes `{ $ne: true }`; anything a caller may have supplied is kept opaque. -/
inductive InternalFilter where
  | neTrue
  | other (raw : String)
deriving DecidableEq, Repr

/-- A query object: the `$sort` and `internal` members the service layer
touches, plus an opaque remainder. -/
structure Query where
  sort : Option SortSpec := none
  internal : Option InternalFilter := none
  qbody : String := ""
deriving DecidableEq, Repr

/-- A params object: the `query` member plus an opaque remainder.  A missing
`params` argument is `none : Option Params` at use sites. -/
structure Params where
  query : Option Query := none
  pbody : String := ""
deriving DecidableEq, Repr

/-- Association-list model of a JavaScript `Map`: lookup by key. -/
def mapLookup {K V : Type} [DecidableEq K] (m : List (K × V)) (k : K) : Option V :=
  (m.find? (fun e => decide (e.1 = k))).map (·.2)

/-- Association-list model of `Map.prototype.set`: replacing the value of an
existing key keeps its insertion position; a new key is appended at the end. -/
def mapSet {K V : Type} [DecidableEq K] (m : List (K × V)) (k : K) (v : V) : List (K × V) :=
  if m.any (fun e => decide (e.1 = k)) then
    m.map (fun e => if e.1 = k then (k, v) else e)
  else
    m ++ [(k, v)]

/-- An entry of the FIFO creation queue: the original data and params and the
pending-result handle, modelled by the caller's index. -/
structure QEntry where
  data : Doc
  params : Option Params
  caller : Nat
deriving DecidableEq, Repr

/-- Creation-queue keys: `JSON.stringify([data, params])`, modelled by the
serialized pair itself. -/
abbrev QKey := Doc × Option Params

/-- The per-instance mutable state of a `BaseService`: the in-flight creation
flag, the creation queue and the two query caches. -/
structure ServiceState where
  isCreationInProcess : Bool
  creationQueue : List (QKey × QEntry)
  cacheFind : List (Option Params × IReturnData (List Doc))
  cacheGet : List ((String × Option Params) × IReturnData Doc)
deriving DecidableEq, Repr

/-- The state of a freshly constructed service instance. -/
def initState : ServiceState :=
  { isCreationInProcess := false, creationQueue := [], cacheFind := [], cacheGet := [] }

/-- The configuration flags of `ICreateServiceOptions` that the modelled code
paths read (`incremental` defaults to `false`, `cacheable` to `true`). -/
structure ServiceConfig where
  serviceName : String
  incremental : Bool := false
  cacheable : Bool := true
deriving DecidableEq, Repr

/-- `BaseService.formatData`: awaits the store promise, catching any rejection;
a rejection becomes an `Error` envelope carrying the message, a resolution an
`OK` envelope carrying the payload.  Nothing is rethrown. -/
def formatData {α : Type} (promise : Except String α) : IReturnData α :=
  match promise with
  | Except.error e => { resultCode := ResultCode.Error, payload := none, errorMessage := some e }
  | Except.ok r => { resultCode := ResultCode.OK, payload := some r, errorMessage := none }

/-- `BaseService.clearCache`: clears both the `find` and the `get` cache. -/
def clearCache (st : ServiceState) : ServiceState :=
  { st with cacheFind := [], cacheGet := [] }

/-- `view(sortL, params)`: reads `params.query.$sort`, `none`-propagating like
ramda's `path(['query', '$sort'])`. -/
def viewSortL (params : Option Params) : Option SortSpec :=
  (params.bind (·.query)).bind (·.sort)

/-- `set(sortL, v, params)`: ramda's `assocPath(['query', '$sort'], v)`, which
creates the missing `params` / `query` objects and preserves sibling fields. -/
def setSortL (v : SortSpec) (params : Option Params) : Option Params :=
  match params with
  | none => some { query := some { sort := some v } }
  | some ps =>
    match ps.query with
    | none => some { ps with query := some { sort := some v } }
    | some q => some { ps with query := some { q with sort := some v } }

/-- The default sort `{ id: -1 }` injected for incremental services. -/
def defaultIncSort : SortSpec := { field := "id", dir := -1 }

/-- The params reassignment at the top of `BaseService.find`:
`if (this.incremental && !view(sortL, params)) params = set(sortL, {id: -1}, params)`. -/
def injectedParams (cfg : ServiceConfig) (params0 : Option Params) : Option Params :=
  if cfg.incremental && (viewSortL params0).isNone then
    setSortL defaultIncSort params0
  else params0

/-- `BaseService.find`.  Returns the envelope, the updated service state, and
the params dispatched to the store (`none` when the store was not invoked,
i.e. on a cache hit). -/
def BaseService.find (cfg : ServiceConfig)
    (store : Option Params → Except String (List Doc))
    (st : ServiceState) (params0 : Option Params) :
    IReturnData (List Doc) × ServiceState × Option (Option Params) :=
  let params := injectedParams cfg params0
  let key := params
  match cfg.cacheable, mapLookup st.cacheFind key with
  | true, some env => (env, st, none)
  | _, _ =>
    let result := formatData (store params)
    let st' :=
      if cfg.cacheable && decide (result.resultCode = ResultCode.OK) then
        { st with cacheFind := mapSet st.cacheFind key result }
      else st
    (result, st', some params)

/-- `BaseService.get`.  Returns the envelope, the updated service state, and
whether the store was invoked. -/
def BaseService.get (cfg : ServiceConfig)
    (store : String → Option Params → Except String Doc)
    (st : ServiceState) (id : String) (params : Option Params) :
    IReturnData Doc × ServiceState × Bool :=
  let key := (id, params)
  match cfg.cacheable, mapLookup st.cacheGet key with
  | true, some env => (env, st, false)
  | _, _ =>
    let result := formatData (store id params)
    let st' :=
      if cfg.cacheable && decide (result.resultCode = ResultCode.OK) then
        { st with cacheGet := mapSet st.cacheGet key result }
      else st
    (result, st', true)

/-- `BaseService.update`: stamps `data.updated = new Date()`, dispatches to the
store, wraps the result, clears both caches.  The third component is the
document dispatched to the store. -/
def BaseService.update (store : String → Doc → Option Params → Except String Doc)
    (now : Nat) (st : ServiceState) (id : String) (data : Doc) (params : Option Params) :
    IReturnData Doc × ServiceState × Doc :=
  let data := { data with updated := some now }
  let result := formatData (store id data params)
  (result, clearCache st, data)

/-- `BaseService.patch`: dispatches to the store (the source stamps no
timestamp here), wraps the result, clears both caches.  The third component is
the document dispatched to the store. -/
def BaseService.patch (store : String → Doc → Option Params → Except String Doc)
    (st : ServiceState) (id : String) (data : Doc) (params : Option Params) :
    IReturnData Doc × ServiceState × Doc :=
  let result := formatData (store id data params)
  (result, clearCache st, data)

/-- `BaseService.remove`: dispatches to the store (no document payload), wraps
the result, clears both caches. -/
def BaseService.remove (store : String → Option Params → Except String Doc)
    (st : ServiceState) (id : String) (params : Option Params) :
    IReturnData Doc × ServiceState :=
  let result := formatData (store id params)
  (result, clearCache st)

/-- A pending, fire-and-forget write of the `last_id` counter document via the
Options service: `update('last_id', ...)` when the counter already existed
(`newId > 0`), `create({_id: 'last_id', ...})` marked internal otherwise. -/
inductive CounterWrite where
  | update (value : Int)
  | create (value : Int)
deriving DecidableEq, Repr

/-- The value carried by a pending counter write. -/
def CounterWrite.value : CounterWrite → Int
  | CounterWrite.update v => v
  | CounterWrite.create v => v

/-- The slice of the Options service visible to the incremental allocator:
the durable `last_id` counter value (`none` when the counter document does not
exist), the Options service's cached `get('last_id')` envelope, and the queue
of initiated but not yet completed counter writes (the source never awaits
them). -/
structure OptionsState where
  stored : Option Int
  getCache : Option (IReturnData Int)
  pendingWrites : List CounterWrite
deriving DecidableEq, Repr

/-- The Options state of a freshly empty incremental service: no counter
document, cold cache, no pending writes. -/
def initOptions : OptionsState :=
  { stored := none, getCache := none, pendingWrites := [] }

/-- `this.optionsService.get(optionLastId)`: `BaseService.get` of the Options
service specialized to the single `last_id` key — cached envelope if present,
otherwise a read of the durable counter (missing document rejects with a
not-found error, caught by `formatData` into an `Error` envelope), with `OK`
results inserted into the cache. -/
def optionsGetLastId (opt : OptionsState) : IReturnData Int × OptionsState :=
  match opt.getCache with
  | some env => (env, opt)
  | none =>
    match opt.stored with
    | some v =>
      let result : IReturnData Int :=
        { resultCode := ResultCode.OK, payload := some v, errorMessage := none }
      (result, { opt with getCache := some result })
    | none =>
      ({ resultCode := ResultCode.Error, payload := none, errorMessage := some "NotFound" }, opt)

/-- One pending counter write completes: the oldest write lands in the durable
store and, its mutation finished, the Options service clears its caches. -/
def flushOneWrite (opt : OptionsState) : OptionsState :=
  match opt.pendingWrites with
  | [] => opt
  | w :: rest => { stored := some w.value, getCache := none, pendingWrites := rest }

/-- `n` pending counter writes complete, oldest first. -/
def flushWrites : Nat → OptionsState → OptionsState
  | 0, opt => opt
  | Nat.succ n, opt => flushWrites n (flushOneWrite opt)

/-- The allocation part of `BaseService.createIncremental`: read the counter
through the Options service (`stored value + 1` when the read is `OK`, `0`
otherwise), initiate — without awaiting, because `await newId > 0 ? ... : ...`
parses as `((await newId) > 0) ? ... : ...` — the counter write (`update` when
`newId > 0`, `create` otherwise), and assign `String(newId)` to the document's
`_id` field. -/
def createIncremental (opt : OptionsState) (data : Doc) : Doc × OptionsState :=
  let read := optionsGetLastId opt
  let serviceLastId := read.1
  let opt1 := read.2
  let newId : Int :=
    if serviceLastId.resultCode = ResultCode.OK then (serviceLastId.payload.getD 0) + 1 else 0
  let write := if newId > 0 then CounterWrite.update newId else CounterWrite.create newId
  let opt2 := { opt1 with pendingWrites := opt1.pendingWrites ++ [write] }
  ({ data with _id := some (toString newId) }, opt2)

/-- `data.created = new Date()` at the top of `BaseService.create`. -/
def stampCreated (now : Nat) (data : Doc) : Doc :=
  { data with created := some now }

/-- The observable outcome of a creation scenario: the store insert calls in
dispatch order, the resolved envelopes with the caller each one reaches
(innermost resolution first, matching `value.resolve(await this.create(...))`
running before the enclosing `createNormal` returns), and the final states. -/
structure DrainOut where
  trace : List (Doc × Option Params)
  resolutions : List (Nat × IReturnData Doc)
  finalState : ServiceState
  finalOptions : OptionsState
deriving Repr

/-- The dispatch `this.incremental ? this.createIncremental(data, params)
: this.createNormal(data, params)`: incremental services run the allocator
first, others pass the data through unchanged. -/
def allocate (cfg : ServiceConfig) (opt : OptionsState) (data : Doc) : Doc × OptionsState :=
  if cfg.incremental then createIncremental opt data else (data, opt)

/-- The asynchronous continuation of one dispatched `create` and the FIFO
drain of the creation queue (`BaseService.createNormal` /
`BaseService.createIncremental` under the outer `formatData` wrap).
Between the completion of one insert and the next allocation's counter read,
`sched.headD 0` pending Options operations complete (`flushWrites`).  When the
insert rejects, `createNormal` throws before `clearCache` and before resetting
`isCreationInProcess`, so the caches survive, the flag stays set and the queue
is left undrained; the outer `formatData` converts the rejection into an
`Error` envelope for this caller only. -/
def drainQueue (cfg : ServiceConfig) (insert : Doc → Option Params → Except String Doc)
    (now : Nat) (sched : List Nat) (queue : List (QKey × QEntry))
    (cacheF : List (Option Params × IReturnData (List Doc)))
    (cacheG : List ((String × Option Params) × IReturnData Doc))
    (opt : OptionsState) (data0 : Doc) (params : Option Params) (caller : Nat) : DrainOut :=
  let step := allocate cfg (flushWrites (sched.headD 0) opt) data0
  let sched := sched.tail
  let data := step.1
  let opt := step.2
  match insert data params with
  | Except.error e =>
    { trace := [(data, params)],
      resolutions := [(caller, formatData (Except.error e))],
      finalState :=
        { isCreationInProcess := true, creationQueue := queue,
          cacheFind := cacheF, cacheGet := cacheG },
      finalOptions := opt }
  | Except.ok doc =>
    match queue with
    | [] =>
      { trace := [(data, params)],
        resolutions := [(caller, formatData (Except.ok (α := Doc) doc))],
        finalState :=
          { isCreationInProcess := false, creationQueue := [], cacheFind := [], cacheGet := [] },
        finalOptions := opt }
    | e :: restQ =>
      let out := drainQueue cfg insert now sched restQ [] [] opt
        (stampCreated now e.2.data) e.2.params e.2.caller
      { trace := (data, params) :: out.trace,
        resolutions := out.resolutions ++ [(caller, formatData (Except.ok (α := Doc) doc))],
        finalState := out.finalState,
        finalOptions := out.finalOptions }

/-- `BaseService.create` issued for a whole batch of calls in one synchronous
tick, none of them awaited.  Each call stamps `data.created` and checks
`isCreationInProcess`: the first call (flag clear) sets the flag and
dispatches; every later call is parked on the creation queue under the key
`JSON.stringify([data, params])` (`mapSet`, so an identical key replaces the
earlier entry in place).  The drain then proceeds asynchronously. -/
def runCreateAll (cfg : ServiceConfig) (insert : Doc → Option Params → Except String Doc)
    (now : Nat) (sched : List Nat) (st : ServiceState) (opt : OptionsState)
    (reqs : List (Nat × Doc × Option Params)) : DrainOut :=
  match reqs with
  | [] => { trace := [], resolutions := [], finalState := st, finalOptions := opt }
  | r :: rest =>
    if st.isCreationInProcess then
      let queue := (r :: rest).foldl
        (fun q e =>
          mapSet q (stampCreated now e.2.1, e.2.2)
            { data := stampCreated now e.2.1, params := e.2.2, caller := e.1 })
        st.creationQueue
      { trace := [], resolutions := [],
        finalState := { st with creationQueue := queue }, finalOptions := opt }
    else
      let queue := rest.foldl
        (fun q e =>
          mapSet q (stampCreated now e.2.1, e.2.2)
            { data := stampCreated now e.2.1, params := e.2.2, caller := e.1 })
        st.creationQueue
      drainQueue cfg insert now sched queue st.cacheFind st.cacheGet opt
        (stampCreated now r.2.1) r.2.2 r.1

/-- `OptionsService.find` (`src/api/options/index.ts`): mutates
`params.query.internal` to `{ $ne: true }` before delegating to
`super.find`.  Reading `params.query` of a missing `params`, or assigning a
property on a missing `query`, throws a `TypeError` synchronously, modelled by
`Except.error`. -/
def OptionsService.find (superFind : Option Params → IReturnData (List Doc))
    (params : Option Params) : Except String (IReturnData (List Doc)) :=
  match params with
  | none => Except.error "TypeError: params is undefined"
  | some ps =>
    match ps.query with
    | none => Except.error "TypeError: params.query is undefined"
    | some q =>
      Except.ok (superFind (some { ps with query := some { q with internal := some InternalFilter.neTrue } }))

/-- `OptionsService.create` (`src/api/options/index.ts`): throws
`Error('ID parameter is mandatory!')` synchronously when `data._id` is falsy
(absent or the empty string) and otherwise delegates to `super.create`,
modelled by its eventual envelope. -/
def OptionsService.create (superCreate : Doc → Option Params → IReturnData Doc)
    (data : Doc) (params : Option Params) : Except String (IReturnData Doc) :=
  let falsyId :=
    match data._id with
    | none => true
    | some s => decide (s = "")
  if falsyId then Except.error "ID parameter is mandatory!"
  else Except.ok (superCreate data params)

/-- The reference store used to interpret a dispatched `find` against a list
of documents, honouring only the `internal` filter: under `{ $ne: true }`,
documents whose `internal` field equals `true` are excluded. -/
def internalFilterStore (docs : List Doc) (p : Option Params) : Except String (List Doc) :=
  match (p.bind (·.query)).bind (·.internal) with
  | some InternalFilter.neTrue =>
    Except.ok (docs.filter (fun d => decide (¬ d.internal = some true)))
  | _ => Except.ok docs

/-! ## Well-formedness of Result Envelopes -/

/-- The Result Envelope invariant: `payload` is populated and `errorMessage`
absent exactly for `OK`, and conversely for `Error`. -/
def wellFormed {α : Type} (r : IReturnData α) : Prop :=
  (r.resultCode = ResultCode.OK ∧ r.payload.isSome = true ∧ r.errorMessage = none) ∨
  (r.resultCode = ResultCode.Error ∧ r.payload = none ∧ r.errorMessage.isSome = true)

/-- Both query caches of a service state hold only well-formed envelopes. -/
def CacheWF (st : ServiceState) : Prop :=
  (∀ e ∈ st.cacheFind, wellFormed e.2) ∧ (∀ e ∈ st.cacheGet, wellFormed e.2)

lemma formatData_wellFormed {α : Type} (p : Except String α) : wellFormed (formatData p) := by
  cases p <;> simp [formatData, wellFormed]

lemma mapLookup_mem {K V : Type} [DecidableEq K] {m : List (K × V)} {k : K} {v : V}
    (h : mapLookup m k = some v) : ∃ k', (k', v) ∈ m := by
  unfold mapLookup at h
  cases hf : m.find? (fun e => decide (e.1 = k)) with
  | none => rw [hf] at h; simp at h
  | some e =>
    rw [hf] at h
    simp at h
    exact ⟨e.1, by simpa [← h] using List.mem_of_find?_eq_some hf⟩

lemma mapLookup_mapSet_self {K V : Type} [DecidableEq K] (m : List (K × V)) (k : K) (v : V) :
    mapLookup (mapSet m k v) k = some v := by
  unfold mapSet
  split
  · next hany =>
    unfold mapLookup
    induction m with
    | nil => simp at hany
    | cons e rest ih =>
      by_cases he : e.1 = k
      · simp [List.find?, he]
      · simp only [List.map_cons, List.find?, if_neg he]
        simp only [List.any_cons, Bool.or_eq_true, decide_eq_true_eq] at hany
        rcases hany with h1 | h2
        · exact absurd h1 he
        · simp only [decide_eq_false he]
          exact ih h2
  · next hany =>
    unfold mapLookup
    induction m with
    | nil => simp [List.find?]
    | cons e rest ih =>
      simp only [List.any_cons, Bool.or_eq_true, decide_eq_true_eq] at hany
      push_neg at hany
      simp only [List.cons_append, List.find?, decide_eq_false hany.1]
      exact ih (by simpa using hany.2)

lemma flushWrites_pending_nil (n : Nat) (opt : OptionsState) (h : opt.pendingWrites = []) :
    flushWrites n opt = opt := by
  induction n with
  | zero => rfl
  | succ k ih =>
    have hone : flushOneWrite opt = opt := by
      unfold flushOneWrite
      rw [h]
    unfold flushWrites
    rw [hone, ih]

lemma flushWrites_single (s : Nat) (hs : s ≠ 0) (st : Option Int)
    (gc : Option (IReturnData Int)) (w : CounterWrite) :
    flushWrites s { stored := st, getCache := gc, pendingWrites := [w] }
      = { stored := some w.value, getCache := none, pendingWrites := [] } := by
  obtain ⟨k, rfl⟩ := Nat.exists_eq_succ_of_ne_zero hs
  unfold flushWrites
  rw [show flushOneWrite { stored := st, getCache := gc, pendingWrites := [w] }
        = { stored := some w.value, getCache := none, pendingWrites := [] } from rfl]
  exact flushWrites_pending_nil k _ rfl

/-! ## The creation drain: every resolution is a `formatData` image -/

lemma drainQueue_resolutions_formatData (cfg : ServiceConfig)
    (ins : Doc → Option Params → Except String Doc) (now : Nat) :
    ∀ (queue : List (QKey × QEntry)) (sched : List Nat) cacheF cacheG
      (opt : OptionsState) (d : Doc) (p : Option Params) (c : Nat),
      ∀ r ∈ (drainQueue cfg ins now sched queue cacheF cacheG opt d p c).resolutions,
        ∃ x : Except String Doc, r.2 = formatData x := by
  intro queue
  induction queue with
  | nil =>
    intro sched cacheF cacheG opt d p c r hr
    rw [drainQueue] at hr
    simp only [List.headD_eq_head?_getD] at hr
    cases hins : ins (allocate cfg (flushWrites (sched.head?.getD 0) opt) d).1 p with
    | error e => simp [hins] at hr; exact ⟨Except.error e, by rw [hr]⟩
    | ok doc => simp [hins] at hr; exact ⟨Except.ok doc, by rw [hr]⟩
  | cons e rest ih =>
    intro sched cacheF cacheG opt d p c r hr
    rw [drainQueue] at hr
    simp only [List.headD_eq_head?_getD] at hr
    cases hins : ins (allocate cfg (flushWrites (sched.head?.getD 0) opt) d).1 p with
    | error er => simp [hins] at hr; exact ⟨Except.error er, by rw [hr]⟩
    | ok doc =>
      simp only [hins, List.mem_append, List.mem_singleton] at hr
      rcases hr with hr | hr
      · exact ih _ _ _ _ _ _ _ r hr
      · exact ⟨Except.ok doc, by rw [hr]⟩

/-! ## The creation drain when every insert succeeds (normal creation path) -/

lemma drainQueue_all_ok (cfg : ServiceConfig) (hinc : cfg.incremental = false)
    (ins : Doc → Option Params → Except String Doc)
    (hins : ∀ d p, ∃ r, ins d p = Except.ok r) (now : Nat) :
    ∀ (queue : List (QKey × QEntry)) (sched : List Nat) cacheF cacheG
      (opt : OptionsState) (d : Doc) (p : Option Params) (c : Nat),
      (drainQueue cfg ins now sched queue cacheF cacheG opt d p c).trace
          = (d, p) :: queue.map (fun e => (stampCreated now e.2.data, e.2.params)) ∧
      (drainQueue cfg ins now sched queue cacheF cacheG opt d p c).resolutions
          = (queue.map (fun e =>
                (e.2.caller, formatData (ins (stampCreated now e.2.data) e.2.params)))).reverse
            ++ [(c, formatData (ins d p))] ∧
      (drainQueue cfg ins now sched queue cacheF cacheG opt d p c).finalState
          = { isCreationInProcess := false, creationQueue := [],
              cacheFind := [], cacheGet := [] } := by
  intro queue
  induction queue with
  | nil =>
    intro sched cacheF cacheG opt d p c
    rw [drainQueue]
    simp only [List.headD_eq_head?_getD]
    obtain ⟨r, hr⟩ := hins (allocate cfg (flushWrites (sched.head?.getD 0) opt) d).1 p
    have hd : (allocate cfg (flushWrites (sched.head?.getD 0) opt) d).1 = d := by
      simp [allocate, hinc]
    rw [hd] at hr
    simp [hr, hd]
  | cons e rest ih =>
    intro sched cacheF cacheG opt d p c
    rw [drainQueue]
    simp only [List.headD_eq_head?_getD]
    obtain ⟨r, hr⟩ := hins (allocate cfg (flushWrites (sched.head?.getD 0) opt) d).1 p
    have hd : (allocate cfg (flushWrites (sched.head?.getD 0) opt) d).1 = d := by
      simp [allocate, hinc]
    rw [hd] at hr
    have hd2 : (allocate cfg (flushWrites (sched.head?.getD 0) opt) d).2
        = flushWrites (sched.head?.getD 0) opt := by
      simp [allocate, hinc]
    simp only [hd, hr, hd2]
    obtain ⟨iht, ihr, ihs⟩ := ih sched.tail [] [] (flushWrites (sched.head?.getD 0) opt)
      (stampCreated now e.2.data) e.2.params e.2.caller
    refine ⟨?_, ?_, ?_⟩
    · simp [iht]
    · simp [ihr, List.append_assoc]
    · simpa using ihs

lemma mapSet_not_mem {K V : Type} [DecidableEq K] (m : List (K × V)) (k : K) (v : V)
    (h : ∀ e ∈ m, e.1 ≠ k) : mapSet m k v = m ++ [(k, v)] := by
  have h' : ¬ (m.any (fun e => decide (e.1 = k)) = true) := by
    simp only [List.any_eq_true, decide_eq_true_eq]
    rintro ⟨e, he, hek⟩
    exact h e he hek
  unfold mapSet
  rw [if_neg h']

/-- Enqueueing requests whose keys are pairwise distinct and absent from the
existing queue appends them in arrival order. -/
lemma enqueue_distinct (now : Nat) :
    ∀ (rest : List (Nat × Doc × Option Params)) (q : List (QKey × QEntry)),
      (∀ r ∈ rest, ∀ e ∈ q, e.1 ≠ (stampCreated now r.2.1, r.2.2)) →
      List.Pairwise
        (fun a b => (stampCreated now a.2.1, a.2.2) ≠ (stampCreated now b.2.1, b.2.2)) rest →
      rest.foldl
        (fun q e =>
          mapSet q (stampCreated now e.2.1, e.2.2)
            { data := stampCreated now e.2.1, params := e.2.2, caller := e.1 }) q
      = q ++ rest.map
          (fun e =>
            ((stampCreated now e.2.1, e.2.2),
             ({ data := stampCreated now e.2.1, params := e.2.2, caller := e.1 } : QEntry))) := by
  intro rest
  induction rest with
  | nil => intro q _ _; simp
  | cons r rest' ih =>
    intro q hq hpw
    simp only [List.foldl_cons, List.map_cons]
    rw [mapSet_not_mem _ _ _ (fun e he => hq r (by simp) e he)]
    have hq' : ∀ r' ∈ rest',
        ∀ e ∈ q ++ [((stampCreated now r.2.1, r.2.2),
            ({ data := stampCreated now r.2.1, params := r.2.2, caller := r.1 } : QEntry))],
        e.1 ≠ (stampCreated now r'.2.1, r'.2.2) := by
      intro r' hr' e he
      rcases List.mem_append.mp he with h1 | h2
      · exact hq r' (by simp [hr']) e h1
      · rw [List.mem_singleton] at h2
        subst h2
        exact (List.pairwise_cons.mp hpw).1 r' hr'
    rw [ih _ hq' (List.Pairwise.of_cons hpw)]
    simp

/-- Whatever the service configuration, a drain in which every insert succeeds
ends with both caches cleared, the flag reset and the queue empty. -/
lemma drainQueue_finalState_ok (cfg : ServiceConfig)
    (ins : Doc → Option Params → Except String Doc)
    (hins : ∀ d p, ∃ r, ins d p = Except.ok r) (now : Nat) :
    ∀ (queue : List (QKey × QEntry)) (sched : List Nat) cacheF cacheG
      (opt : OptionsState) (d : Doc) (p : Option Params) (c : Nat),
      (drainQueue cfg ins now sched queue cacheF cacheG opt d p c).finalState
        = { isCreationInProcess := false, creationQueue := [],
            cacheFind := [], cacheGet := [] } := by
  intro queue
  induction queue with
  | nil =>
    intro sched cacheF cacheG opt d p c
    rw [drainQueue]
    simp only [List.headD_eq_head?_getD]
    obtain ⟨r, hr⟩ := hins (allocate cfg (flushWrites (sched.head?.getD 0) opt) d).1 p
    simp [hr]
  | cons e rest ih =>
    intro sched cacheF cacheG opt d p c
    rw [drainQueue]
    simp only [List.headD_eq_head?_getD]
    obtain ⟨r, hr⟩ := hins (allocate cfg (flushWrites (sched.head?.getD 0) opt) d).1 p
    simp [hr, ih]

lemma find_wellFormed (cfg : ServiceConfig) (fstore : Option Params → Except String (List Doc))
    (st : ServiceState) (p : Option Params) (hwf : CacheWF st) :
    wellFormed (BaseService.find cfg fstore st p).1 := by
  unfold BaseService.find
  dsimp only
  split
  · rename_i env hcac hlook
    obtain ⟨k', hmem⟩ := mapLookup_mem hlook
    exact hwf.1 (k', env) hmem
  · split <;> exact formatData_wellFormed _

lemma get_wellFormed (cfg : ServiceConfig) (gstore : String → Option Params → Except String Doc)
    (st : ServiceState) (i : String) (p : Option Params) (hwf : CacheWF st) :
    wellFormed (BaseService.get cfg gstore st i p).1 := by
  unfold BaseService.get
  dsimp only
  split
  · rename_i env hcac hlook
    obtain ⟨k', hmem⟩ := mapLookup_mem hlook
    exact hwf.2 (k', env) hmem
  · split <;> exact formatData_wellFormed _

lemma runCreateAll_resolutions_formatData (cfg : ServiceConfig)
    (ins : Doc → Option Params → Except String Doc) (now : Nat) (sched : List Nat)
    (st : ServiceState) (opt : OptionsState) (reqs : List (Nat × Doc × Option Params)) :
    ∀ r ∈ (runCreateAll cfg ins now sched st opt reqs).resolutions,
      ∃ x : Except String Doc, r.2 = formatData x := by
  cases reqs with
  | nil => intro r hr; simp [runCreateAll] at hr
  | cons r0 rest =>
    intro r hr
    unfold runCreateAll at hr
    by_cases hf : st.isCreationInProcess
    · simp [hf] at hr
    · simp only [hf, Bool.false_eq_true, if_false] at hr
      exact drainQueue_resolutions_formatData cfg ins now _ _ _ _ _ _ _ _ r hr

/-! ## Claim C1 -/

/-- C1: for every service operation (find, get, create, update, patch,
remove) and every behaviour of the underlying store, the returned value is a
well-formed Result Envelope — `OK` with a payload and no `errorMessage`, or
`Error` with an `errorMessage` and no payload; every rejection of the store
call is absorbed by `formatData` into an `Error` envelope and never reaches
the caller as a raised error (the operations are total functions into
envelopes).  Cached envelopes are covered by the `CacheWF` hypothesis, which
the operations themselves establish, since only `formatData` images are ever
inserted into the caches. -/
theorem c1_uniform_result_envelopes :
    ∀ (cfg : ServiceConfig) (st : ServiceState), CacheWF st →
      (∀ fstore p, wellFormed (BaseService.find cfg fstore st p).1) ∧
      (∀ gstore i p, wellFormed (BaseService.get cfg gstore st i p).1) ∧
      (∀ ustore now i d p, wellFormed (BaseService.update ustore now st i d p).1) ∧
      (∀ pstore i d p, wellFormed (BaseService.patch pstore st i d p).1) ∧
      (∀ rstore i p, wellFormed (BaseService.remove rstore st i p).1) ∧
      (∀ ins now sched opt reqs,
        ∀ r ∈ (runCreateAll cfg ins now sched st opt reqs).resolutions,
          wellFormed r.2) := by
  intro cfg st hwf
  refine ⟨fun fstore p => find_wellFormed cfg fstore st p hwf,
          fun gstore i p => get_wellFormed cfg gstore st i p hwf,
          fun ustore now i d p => formatData_wellFormed _,
          fun pstore i d p => formatData_wellFormed _,
          fun rstore i p => formatData_wellFormed _,
          fun ins now sched opt reqs r hr => ?_⟩
  obtain ⟨x, hx⟩ := runCreateAll_resolutions_formatData cfg ins now sched st opt reqs r hr
  rw [hx]
  exact formatData_wellFormed x

/-- Witness for C1 at a concrete input. -/
theorem c1_uniform_result_envelopes_witness :
    wellFormed (BaseService.update (fun _ d _ => Except.ok d) 0 initState "1"
      { body := "x" } none).1 := by
  have hwf : CacheWF initState := by
    constructor <;> intro e he <;> simp [initState] at he
  exact (c1_uniform_result_envelopes { serviceName := "posts" } initState hwf).2.2.1
    (fun _ d _ => Except.ok d) 0 "1" { body := "x" } none

/-! ## Claim C6 -/

/-- C6 counterexample: `patch` dispatches its document to the store
completely unchanged — at this concrete input the dispatched document still
has `updated = none`, so `patch` does not stamp a fresh `updated` timestamp,
contrary to the claim that both `update` and `patch` do. -/
theorem c6_patch_counterexample :
    (BaseService.patch (fun _ d _ => Except.ok d) initState "5" { body := "x" } none).2.2
      = { body := "x" } ∧
    ({ body := "x" } : Doc).updated = none :=
  ⟨rfl, rfl⟩

/-- C6 amended: only `update` stamps a fresh `updated` timestamp on the
document it dispatches to the store; `patch` dispatches its document
unchanged, and `remove` dispatches no document at all. -/
theorem c6_update_stamps_updated :
    ∀ (ustore pstore : String → Doc → Option Params → Except String Doc)
      (rstore : String → Option Params → Except String Doc)
      (now : Nat) (st : ServiceState) (i : String) (d : Doc) (p : Option Params),
      (BaseService.update ustore now st i d p).2.2 = { d with updated := some now } ∧
      (BaseService.update ustore now st i d p).1
        = formatData (ustore i { d with updated := some now } p) ∧
      (BaseService.patch pstore st i d p).2.2 = d ∧
      (BaseService.remove rstore st i p) = (formatData (rstore i p), clearCache st) :=
  fun _ _ _ _ _ _ _ _ => ⟨rfl, rfl, rfl, rfl⟩

/-! ## Claim C9 -/

/-- C9 counterexample: calling the Options service's `create` with data
lacking `_id` produces a synchronously raised error — the `Except.error`
result of the method — and not an `Error` envelope: no envelope is ever
returned for this input. -/
theorem c9_counterexample :
    OptionsService.create (fun d _ => formatData (Except.ok d)) { body := "x" } none
      = Except.error "ID parameter is mandatory!" ∧
    ∀ env : IReturnData Doc,
      OptionsService.create (fun d _ => formatData (Except.ok d)) { body := "x" } none
        ≠ Except.ok env := by
  constructor
  · rfl
  · intro env h
    simp [OptionsService.create] at h

/-- C9 amended: the service-level guard rejects a `create` whose data lacks a
(truthy) `_id` by synchronously throwing `Error('ID parameter is
mandatory!')`; the throw is not converted into an `Error` envelope by the
service — `formatData` never runs for it — so a direct caller of the method
observes a raised exception, whatever the underlying store would do. -/
theorem c9_guard_rejects_missing_id :
    ∀ (superCreate : Doc → Option Params → IReturnData Doc) (data : Doc) (params : Option Params),
      (data._id = none ∨ data._id = some "") →
      OptionsService.create superCreate data params
        = Except.error "ID parameter is mandatory!" := by
  intro sc data params h
  rcases h with h | h <;> simp [OptionsService.create, h]

/-- Witness for C9's amended theorem at a concrete input. -/
theorem c9_guard_rejects_missing_id_witness :
    ({ body := "x" } : Doc)._id = none ∧
    OptionsService.create (fun d _ => formatData (Except.ok d)) { body := "x" } none
      = Except.error "ID parameter is mandatory!" :=
  ⟨rfl, c9_guard_rejects_missing_id (fun d _ => formatData (Except.ok d))
    { body := "x" } none (Or.inl rfl)⟩

/-! ## Claim C10 -/

/-- C10: the Options service's `find` overwrites any caller-supplied filter
on the `internal` field with `{ $ne: true }` before dispatching to
`super.find`, so — against a store honouring that filter — no document
flagged `internal: true` (in particular the `last_id` counter document) is
ever returned, whatever the caller's query; and `find` requires `params` with
a `query` object present: called without one it throws a `TypeError`. -/
theorem c10_options_find_internal_guard :
    (∀ (sf : Option Params → IReturnData (List Doc)) (ps : Params) (q : Query),
      OptionsService.find sf (some { ps with query := some q })
        = Except.ok
            (sf (some { ps with
                  query := some { q with internal := some InternalFilter.neTrue } }))) ∧
    (∀ sf : Option Params → IReturnData (List Doc),
      OptionsService.find sf none = Except.error "TypeError: params is undefined") ∧
    (∀ (sf : Option Params → IReturnData (List Doc)) (pb : String),
      OptionsService.find sf (some { query := none, pbody := pb })
        = Except.error "TypeError: params.query is undefined") ∧
    (∀ (docs : List Doc) (ps : Params) (q : Query),
      OptionsService.find
          (fun pp => (BaseService.find { serviceName := "options" }
            (internalFilterStore docs) initState pp).1)
          (some { ps with query := some q })
        = Except.ok
            { resultCode := ResultCode.OK
              payload := some (docs.filter (fun d => decide (¬ d.internal = some true)))
              errorMessage := none } ∧
      (docs.filter (fun d => decide (¬ d.internal = some true))).all
          (fun d => decide (¬ d.internal = some true)) = true) := by
  refine ⟨fun sf ps q => rfl, fun sf => rfl, fun sf pb => rfl, fun docs ps q => ⟨rfl, ?_⟩⟩
  simp only [List.all_eq_true]
  intro d hd
  exact (List.mem_filter.mp hd).2

/-! ## Claim C7 -/

lemma find_cache_hit (cfg : ServiceConfig) (fstore : Option Params → Except String (List Doc))
    (st : ServiceState) (p : Option Params) (env : IReturnData (List Doc))
    (hc : cfg.cacheable = true)
    (hl : mapLookup st.cacheFind (injectedParams cfg p) = some env) :
    BaseService.find cfg fstore st p = (env, st, none) := by
  unfold BaseService.find
  dsimp only
  rw [hc, hl]

lemma find_cache_miss (cfg : ServiceConfig) (fstore : Option Params → Except String (List Doc))
    (st : ServiceState) (p : Option Params)
    (hl : mapLookup st.cacheFind (injectedParams cfg p) = none) :
    BaseService.find cfg fstore st p =
      (formatData (fstore (injectedParams cfg p)),
       (if cfg.cacheable &&
            decide ((formatData (fstore (injectedParams cfg p))).resultCode = ResultCode.OK) then
          { st with
              cacheFind := mapSet st.cacheFind (injectedParams cfg p)
                             (formatData (fstore (injectedParams cfg p))) }
        else st),
       some (injectedParams cfg p)) := by
  unfold BaseService.find
  dsimp only
  cases hcc : cfg.cacheable <;> rw [hl]

/-- C7: on a cacheable service, two consecutive `find` calls with the same
serialized parameters and no intervening mutation, the first returning `OK`,
yield the very same cached envelope, and the second call does not invoke the
store (its dispatched-params component is `none`); moreover an `Error` result
is never inserted into the cache — it leaves the service state untouched. -/
theorem c7_find_cache_idempotent :
    ∀ (cfg : ServiceConfig) (fstore : Option Params → Except String (List Doc))
      (st : ServiceState) (p : Option Params),
      cfg.cacheable = true →
      (BaseService.find cfg fstore st p).1.resultCode = ResultCode.OK →
      ((BaseService.find cfg fstore (BaseService.find cfg fstore st p).2.1 p).1
          = (BaseService.find cfg fstore st p).1 ∧
       (BaseService.find cfg fstore (BaseService.find cfg fstore st p).2.1 p).2.2 = none) ∧
      (∀ (st' : ServiceState) (p' : Option Params),
        (BaseService.find cfg fstore st' p').1.resultCode = ResultCode.Error →
        (BaseService.find cfg fstore st' p').2.1 = st') := by
  intro cfg fstore st p hc hOK
  constructor
  · cases hl : mapLookup st.cacheFind (injectedParams cfg p) with
    | some env =>
      have h1 := find_cache_hit cfg fstore st p env hc hl
      rw [h1]
      rw [find_cache_hit cfg fstore st p env hc hl]
      exact ⟨rfl, rfl⟩
    | none =>
      have h1 := find_cache_miss cfg fstore st p hl
      rw [h1] at hOK ⊢
      dsimp only at hOK
      have hcond : (cfg.cacheable &&
          decide ((formatData (fstore (injectedParams cfg p))).resultCode = ResultCode.OK))
            = true := by
        rw [hc, hOK]
        simp
      rw [hcond]
      dsimp only
      have hl2 : mapLookup
          ({ st with
              cacheFind := mapSet st.cacheFind (injectedParams cfg p)
                             (formatData (fstore (injectedParams cfg p))) }
            : ServiceState).cacheFind
          (injectedParams cfg p)
          = some (formatData (fstore (injectedParams cfg p))) := by
        exact mapLookup_mapSet_self st.cacheFind (injectedParams cfg p) _
      rw [if_pos rfl]
      rw [find_cache_hit cfg fstore _ p _ hc hl2]
      exact ⟨rfl, rfl⟩
  · intro st' p' hErr
    cases hl : mapLookup st'.cacheFind (injectedParams cfg p') with
    | some env =>
      rw [find_cache_hit cfg fstore st' p' env hc hl]
    | none =>
      rw [find_cache_miss cfg fstore st' p' hl] at hErr ⊢
      dsimp only at hErr
      have hcond : (cfg.cacheable &&
          decide ((formatData (fstore (injectedParams cfg p'))).resultCode = ResultCode.OK))
            = false := by
        rw [hErr]
        simp
      rw [hcond]
      simp

/-- Witness for C7 at a concrete input. -/
theorem c7_find_cache_idempotent_witness :
    (BaseService.find { serviceName := "posts" } (fun _ => Except.ok ([] : List Doc))
        (BaseService.find { serviceName := "posts" } (fun _ => Except.ok ([] : List Doc))
          initState none).2.1 none).1
      = (BaseService.find { serviceName := "posts" } (fun _ => Except.ok ([] : List Doc))
          initState none).1 ∧
    (BaseService.find { serviceName := "posts" } (fun _ => Except.ok ([] : List Doc))
        (BaseService.find { serviceName := "posts" } (fun _ => Except.ok ([] : List Doc))
          initState none).2.1 none).2.2 = none :=
  (c7_find_cache_idempotent { serviceName := "posts" } (fun _ => Except.ok ([] : List Doc))
    initState none rfl rfl).1

/-! ## Claim C8 -/

/-- Documents in descending order of their `id` field (the order a store
honouring `$sort: { id: -1 }` produces). -/
def orderedByIdDesc (l : List Doc) : Prop :=
  List.Chain' (fun a b => b.id.getD 0 ≤ a.id.getD 0) l

lemma viewSortL_setSortL (v : SortSpec) (p : Option Params) :
    viewSortL (setSortL v p) = some v := by
  cases p with
  | none => rfl
  | some ps =>
    cases hq : ps.query with
    | none => simp [setSortL, viewSortL, hq]
    | some q => simp [setSortL, viewSortL, hq]

/-- C8: on an incremental service with a cold `find` cache, a `find` whose
caller supplied no `$sort` dispatches params with the default descending sort
on `id` injected (`setSortL defaultIncSort`), so that against any store
honouring that sort the returned payload is ordered by descending `id`;
when the caller did supply a `$sort`, the params reach the store unchanged. -/
theorem c8_default_sort_injection :
    ∀ (cfg : ServiceConfig) (fstore : Option Params → Except String (List Doc))
      (st : ServiceState),
      cfg.incremental = true →
      st.cacheFind = [] →
      (∀ pp l, viewSortL pp = some defaultIncSort → fstore pp = Except.ok l →
        orderedByIdDesc l) →
      (∀ p, viewSortL p = none →
        (BaseService.find cfg fstore st p).2.2 = some (setSortL defaultIncSort p) ∧
        ∀ l, (BaseService.find cfg fstore st p).1.payload = some l → orderedByIdDesc l) ∧
      (∀ p s, viewSortL p = some s →
        (BaseService.find cfg fstore st p).2.2 = some p) := by
  intro cfg fstore st hinc hcold hsort
  have hlook : ∀ pp, mapLookup st.cacheFind pp = (none : Option (IReturnData (List Doc))) := by
    intro pp
    rw [hcold]
    rfl
  constructor
  · intro p hp
    have hinj : injectedParams cfg p = setSortL defaultIncSort p := by
      simp [injectedParams, hinc, hp]
    have h1 := find_cache_miss cfg fstore st p (hlook _)
    rw [h1, hinj]
    refine ⟨rfl, ?_⟩
    intro l hl
    dsimp only at hl
    cases hfs : fstore (setSortL defaultIncSort p) with
    | error e => rw [hfs] at hl; simp [formatData] at hl
    | ok l' =>
      rw [hfs] at hl
      simp only [formatData] at hl
      cases hl
      exact hsort _ _ (viewSortL_setSortL defaultIncSort p) hfs
  · intro p s hp
    have hinj : injectedParams cfg p = p := by
      simp [injectedParams, hp]
    have h1 := find_cache_miss cfg fstore st p (hlook _)
    rw [h1, hinj]

/-- Witness for C8 at a concrete input. -/
theorem c8_default_sort_injection_witness :
    (BaseService.find { serviceName := "posts", incremental := true }
        (fun _ => Except.ok ([] : List Doc)) initState none).2.2
      = some (setSortL defaultIncSort none) :=
  ((c8_default_sort_injection { serviceName := "posts", incremental := true }
      (fun _ => Except.ok ([] : List Doc)) initState rfl rfl
      (fun pp l _ h => by
        injection h with h2
        rw [← h2]
        simp [orderedByIdDesc])).1 none rfl).1

/-! ## Claim C2 -/

/-- C2 counterexample: a `create` whose store insert rejects completes with
an `Error` envelope, yet the `find` cache is NOT cleared — `createNormal`
throws before `clearCache` runs — refuting the claim that every mutation
clears both caches whether its envelope is `OK` or `Error`. -/
theorem c2_counterexample :
    (runCreateAll { serviceName := "posts" } (fun _ _ => Except.error "boom") 0 []
        { isCreationInProcess := false, creationQueue := [],
          cacheFind := [(none, { resultCode := ResultCode.OK, payload := some [],
                                 errorMessage := none })],
          cacheGet := [] }
        initOptions [(1, { body := "a" }, none)]).finalState.cacheFind
      = [(none, { resultCode := ResultCode.OK, payload := some [], errorMessage := none })] ∧
    (runCreateAll { serviceName := "posts" } (fun _ _ => Except.error "boom") 0 []
        { isCreationInProcess := false, creationQueue := [],
          cacheFind := [(none, { resultCode := ResultCode.OK, payload := some [],
                                 errorMessage := none })],
          cacheGet := [] }
        initOptions [(1, { body := "a" }, none)]).resolutions
      = [(1, { resultCode := ResultCode.Error, payload := none, errorMessage := some "boom" })] := by
  constructor <;> rfl

/-- C2 amended: `update`, `patch` and `remove` clear both caches
unconditionally; `create` clears both caches when the store insert succeeds,
but when the insert rejects the `Error` envelope is returned with both caches
left exactly as they were (and the in-flight flag still set). -/
theorem c2_mutations_clear_caches :
    (∀ (ustore : String → Doc → Option Params → Except String Doc)
       (now : Nat) (st : ServiceState) (i : String) (d : Doc) (p : Option Params),
      (BaseService.update ustore now st i d p).2.1.cacheFind = [] ∧
      (BaseService.update ustore now st i d p).2.1.cacheGet = []) ∧
    (∀ (pstore : String → Doc → Option Params → Except String Doc)
       (st : ServiceState) (i : String) (d : Doc) (p : Option Params),
      (BaseService.patch pstore st i d p).2.1.cacheFind = [] ∧
      (BaseService.patch pstore st i d p).2.1.cacheGet = []) ∧
    (∀ (rstore : String → Option Params → Except String Doc)
       (st : ServiceState) (i : String) (p : Option Params),
      (BaseService.remove rstore st i p).2.cacheFind = [] ∧
      (BaseService.remove rstore st i p).2.cacheGet = []) ∧
    (∀ (cfg : ServiceConfig) (ins : Doc → Option Params → Except String Doc)
       (now : Nat) (sched : List Nat) (st : ServiceState) (opt : OptionsState)
       (r0 : Nat × Doc × Option Params) (rest : List (Nat × Doc × Option Params)),
      (∀ d p, ∃ x, ins d p = Except.ok x) →
      st.isCreationInProcess = false →
      (runCreateAll cfg ins now sched st opt (r0 :: rest)).finalState.cacheFind = [] ∧
      (runCreateAll cfg ins now sched st opt (r0 :: rest)).finalState.cacheGet = []) ∧
    (∀ (cfg : ServiceConfig) (ins : Doc → Option Params → Except String Doc) (msg : String)
       (now : Nat) (sched : List Nat) (st : ServiceState) (opt : OptionsState)
       (c : Nat) (d : Doc) (p : Option Params),
      (∀ d' p', ins d' p' = Except.error msg) →
      st.isCreationInProcess = false →
      (runCreateAll cfg ins now sched st opt [(c, d, p)]).finalState.cacheFind = st.cacheFind ∧
      (runCreateAll cfg ins now sched st opt [(c, d, p)]).finalState.cacheGet = st.cacheGet ∧
      (runCreateAll cfg ins now sched st opt [(c, d, p)]).resolutions
        = [(c, { resultCode := ResultCode.Error, payload := none,
                 errorMessage := some msg })]) := by
  refine ⟨fun _ _ _ _ _ _ => ⟨rfl, rfl⟩,
          fun _ _ _ _ _ => ⟨rfl, rfl⟩,
          fun _ _ _ _ => ⟨rfl, rfl⟩,
          ?_, ?_⟩
  · intro cfg ins now sched st opt r0 rest hins hflag
    unfold runCreateAll
    simp only [hflag, Bool.false_eq_true, if_false]
    rw [drainQueue_finalState_ok cfg ins hins now]
    exact ⟨rfl, rfl⟩
  · intro cfg ins msg now sched st opt c d p hfail hflag
    unfold runCreateAll
    simp only [hflag, Bool.false_eq_true, if_false, List.foldl_nil]
    rw [drainQueue]
    rw [hfail]
    exact ⟨rfl, rfl, rfl⟩

/-- Witness for C2's amended theorem at a concrete input. -/
theorem c2_mutations_clear_caches_witness :
    (runCreateAll { serviceName := "posts" } (fun _ _ => Except.error "boom") 0 []
        initState initOptions [(1, { body := "a" }, none)]).finalState.cacheFind
      = initState.cacheFind :=
  (c2_mutations_clear_caches.2.2.2.2 { serviceName := "posts" }
    (fun _ _ => Except.error "boom") "boom" 0 [] initState initOptions
    1 { body := "a" } none (fun _ _ => rfl) rfl).1

/-! ## Claim C3 -/

lemma stampCreated_stampCreated (now : Nat) (d : Doc) :
    stampCreated now (stampCreated now d) = stampCreated now d := rfl

/-- C3 counterexample: three un-awaited `create` calls where the second and
third carry identical data and params.  The creation queue is a `Map` keyed by
`JSON.stringify([data, params])`, so the third call's entry replaces the
second's: the store receives only two inserts for three calls, and only
callers 3 and 1 ever see a resolution — caller 2's request is dropped,
refuting "no queued request is dropped ... including when two queued requests
carry identical data and params". -/
theorem c3_counterexample :
    (runCreateAll { serviceName := "posts" } (fun d _ => Except.ok d) 0 [] initState initOptions
        [(1, { body := "a" }, none), (2, { body := "b" }, none),
         (3, { body := "b" }, none)]).trace.length = 2 ∧
    (runCreateAll { serviceName := "posts" } (fun d _ => Except.ok d) 0 [] initState initOptions
        [(1, { body := "a" }, none), (2, { body := "b" }, none),
         (3, { body := "b" }, none)]).resolutions.map (fun r => r.1) = [3, 1] := by
  constructor <;> rfl

/-- C3 amended: for un-awaited `create` calls on one idle service instance
whose queued requests have pairwise-distinct serialized `(data, params)` keys
and whose store accepts every insert, the store receives the inserts strictly
in arrival order (first the directly dispatched call, then the queued ones in
FIFO order), no request is lost, and each caller's resolved envelope wraps the
insert of its own stamped data (resolutions listed innermost-first, matching
`value.resolve(await this.create(...))`); two queued requests with identical
keys, however, collapse to a single queue slot.  Stated for the normal
(non-incremental) creation path; identifier assignment is covered by C4. -/
theorem c3_fifo_creation_queue :
    ∀ (cfg : ServiceConfig) (ins : Doc → Option Params → Except String Doc)
      (now : Nat) (sched : List Nat) (st : ServiceState) (opt : OptionsState)
      (c0 : Nat) (d0 : Doc) (p0 : Option Params) (rest : List (Nat × Doc × Option Params)),
      cfg.incremental = false →
      (∀ d p, ∃ x, ins d p = Except.ok x) →
      st.isCreationInProcess = false →
      st.creationQueue = [] →
      List.Pairwise
        (fun a b => (stampCreated now a.2.1, a.2.2) ≠ (stampCreated now b.2.1, b.2.2)) rest →
      (runCreateAll cfg ins now sched st opt ((c0, d0, p0) :: rest)).trace
        = ((c0, d0, p0) :: rest).map (fun e => (stampCreated now e.2.1, e.2.2)) ∧
      (runCreateAll cfg ins now sched st opt ((c0, d0, p0) :: rest)).resolutions
        = (rest.map (fun e => (e.1, formatData (ins (stampCreated now e.2.1) e.2.2)))).reverse
          ++ [(c0, formatData (ins (stampCreated now d0) p0))] := by
  intro cfg ins now sched st opt c0 d0 p0 rest hinc hins hflag hq hpw
  unfold runCreateAll
  simp only [hflag, Bool.false_eq_true, if_false]
  rw [hq]
  rw [enqueue_distinct now rest [] (fun r _ e he => absurd he (List.not_mem_nil e)) hpw]
  simp only [List.nil_append]
  obtain ⟨ht, hr, _⟩ := drainQueue_all_ok cfg hinc ins hins now
    (rest.map (fun e =>
      ((stampCreated now e.2.1, e.2.2),
       ({ data := stampCreated now e.2.1, params := e.2.2, caller := e.1 } : QEntry))))
    sched st.cacheFind st.cacheGet opt (stampCreated now d0) p0 c0
  refine ⟨?_, ?_⟩
  · rw [ht]
    simp [List.map_map, Function.comp, stampCreated_stampCreated]
  · rw [hr]
    simp [List.map_map, Function.comp, stampCreated_stampCreated]

/-- Witness for C3's amended theorem at a concrete input. -/
theorem c3_fifo_creation_queue_witness :
    (runCreateAll { serviceName := "posts" } (fun d _ => Except.ok d) 0 [] initState initOptions
        [(1, { body := "a" }, none), (2, { body := "b" }, none)]).trace
      = [({ body := "a", created := some 0 }, none), ({ body := "b", created := some 0 }, none)] := by
  have h := (c3_fifo_creation_queue { serviceName := "posts" } (fun d _ => Except.ok d) 0 []
    initState initOptions 1 { body := "a" } none [(2, { body := "b" }, none)]
    rfl (fun d p => ⟨d, rfl⟩) rfl rfl (by simp)).1
  simpa [stampCreated] using h

/-! ## Claims C4 and C5: the incremental allocator -/

lemma createIncremental_fresh (pw : List CounterWrite) (d : Doc) :
    createIncremental { stored := none, getCache := none, pendingWrites := pw } d
      = ({ d with _id := some "0" },
         { stored := none, getCache := none,
           pendingWrites := pw ++ [CounterWrite.create 0] }) := rfl

lemma createIncremental_stored_zero (pw : List CounterWrite) (d : Doc) :
    createIncremental { stored := some 0, getCache := none, pendingWrites := pw } d
      = ({ d with _id := some "1" },
         { stored := some 0,
           getCache := some { resultCode := ResultCode.OK, payload := some 0,
                              errorMessage := none },
           pendingWrites := pw ++ [CounterWrite.update 1] }) := rfl

lemma createIncremental_stored_one (pw : List CounterWrite) (d : Doc) :
    createIncremental { stored := some 1, getCache := none, pendingWrites := pw } d
      = ({ d with _id := some "2" },
         { stored := some 1,
           getCache := some { resultCode := ResultCode.OK, payload := some 1,
                              errorMessage := none },
           pendingWrites := pw ++ [CounterWrite.update 2] }) := rfl

/-- C4 amended: on a freshly empty incremental service, three un-awaited
`create` calls with distinct queued keys receive the identifiers `"0"`, `"1"`,
`"2"` in issuance order PROVIDED each fire-and-forget counter write (and the
cache invalidation its completion triggers in the Options service) completes
before the next allocation reads the counter (`s2 ≠ 0`, `s3 ≠ 0` pending
operations flushed between allocations); the code does not await the write,
so this timing is not enforced — see the counterexample. -/
theorem c4_incremental_ids_flushed :
    ∀ (ins : Doc → Option Params → Except String Doc)
      (now s1 s2 s3 c1 c2 c3 : Nat) (d1 d2 d3 : Doc) (p1 p2 p3 : Option Params),
      (∀ d p, ∃ x, ins d p = Except.ok x) →
      s2 ≠ 0 → s3 ≠ 0 →
      (stampCreated now d2, p2) ≠ (stampCreated now d3, p3) →
      (runCreateAll { serviceName := "posts", incremental := true } ins now [s1, s2, s3]
          initState initOptions
          [(c1, d1, p1), (c2, d2, p2), (c3, d3, p3)]).trace.map (fun t => t.1._id)
        = [some "0", some "1", some "2"] := by
  intro ins now s1 s2 s3 c1 c2 c3 d1 d2 d3 p1 p2 p3 hins hs2 hs3 hk
  have hpw : List.Pairwise
      (fun a b => (stampCreated now a.2.1, a.2.2) ≠ (stampCreated now b.2.1, b.2.2))
      [(c2, d2, p2), (c3, d3, p3)] :=
    List.Pairwise.cons
      (fun b hb => by rw [List.mem_singleton] at hb; subst hb; exact hk)
      (List.pairwise_singleton _ _)
  unfold runCreateAll
  simp only [initState, Bool.false_eq_true, if_false]
  rw [enqueue_distinct now [(c2, d2, p2), (c3, d3, p3)] []
    (fun r _ e he => absurd he (List.not_mem_nil e)) hpw]
  simp only [List.nil_append, List.map_cons, List.map_nil]
  -- allocation 1: cold counter, id "0", pending create(0)
  rw [drainQueue]
  simp only [List.headD_eq_head?_getD, List.head?_cons, Option.getD_some, List.tail_cons]
  rw [flushWrites_pending_nil s1 initOptions rfl]
  simp only [allocate, if_true, initOptions]
  rw [createIncremental_fresh]
  obtain ⟨x1, hx1⟩ := hins { stampCreated now d1 with _id := some "0" } p1
  rw [hx1]
  dsimp only
  simp only [List.map_cons]
  rw [stampCreated_stampCreated]
  -- allocation 2: counter write create(0) flushed, read OK 0, id "1", pending update(1)
  rw [drainQueue]
  simp only [List.headD_eq_head?_getD, List.head?_cons, Option.getD_some, List.tail_cons,
    List.nil_append]
  rw [flushWrites_single s2 hs2]
  simp only [CounterWrite.value, allocate, if_true]
  rw [createIncremental_stored_zero]
  obtain ⟨x2, hx2⟩ := hins { stampCreated now d2 with _id := some "1" } p2
  rw [hx2]
  dsimp only
  simp only [List.map_cons]
  rw [stampCreated_stampCreated]
  -- allocation 3: counter write update(1) flushed, read OK 1, id "2"
  rw [drainQueue]
  simp only [List.headD_eq_head?_getD, List.head?_cons, Option.getD_some, List.tail_cons,
    List.nil_append]
  rw [flushWrites_single s3 hs3]
  simp only [CounterWrite.value, allocate, if_true]
  rw [createIncremental_stored_one]
  obtain ⟨x3, hx3⟩ := hins { stampCreated now d3 with _id := some "2" } p3
  rw [hx3]
  dsimp only
  simp

/-- Witness for C4's amended theorem at a concrete input. -/
theorem c4_incremental_ids_flushed_witness :
    (runCreateAll { serviceName := "posts", incremental := true } (fun d _ => Except.ok d) 0
        [0, 1, 1] initState initOptions
        [(1, { body := "a" }, none), (2, { body := "b" }, none),
         (3, { body := "c" }, none)]).trace.map (fun t => t.1._id)
      = [some "0", some "1", some "2"] :=
  c4_incremental_ids_flushed (fun d _ => Except.ok d) 0 0 1 1 1 2 3
    { body := "a" } { body := "b" } { body := "c" } none none none
    (fun d _ => ⟨d, rfl⟩) (by decide) (by decide) (by decide)

/-- C4 counterexample: the counter write is initiated but never awaited
(`await newId > 0 ? ... : ...` parses as `((await newId) > 0) ? ... : ...`),
so under an admissible completion order — the second allocation's
`update('last_id', 1)` has not completed (and hence not invalidated the
Options `get` cache) when the third allocation reads the counter — the third
concurrent `create` reads the stale cached value `0` and is assigned the
duplicate identifier `"1"` instead of `"2"`. -/
theorem c4_counterexample :
    (runCreateAll { serviceName := "posts", incremental := true } (fun d _ => Except.ok d) 0
        [0, 1, 0] initState initOptions
        [(1, { body := "a" }, none), (2, { body := "b" }, none),
         (3, { body := "c" }, none)]).trace.map (fun t => t.1._id)
      = [some "0", some "1", some "1"] := by
  rfl

/-- C5 amended: allocator outcomes are swallowed, not thrown: the Options
service's `get`/`update`/`create` return envelopes and never raise, a non-`OK`
counter read silently yields id `0`, the counter write is initiated without
being awaited and its result is discarded, and the envelope each caller
receives is exactly the `formatData` image of the document insert itself —
whatever the state of the Options service. -/
theorem c5_allocator_failures_swallowed :
    ∀ (cfg : ServiceConfig) (ins : Doc → Option Params → Except String Doc)
      (now : Nat) (sched : List Nat) (st : ServiceState) (opt : OptionsState)
      (c : Nat) (d : Doc) (p : Option Params),
      cfg.incremental = true →
      st.isCreationInProcess = false →
      st.creationQueue = [] →
      (runCreateAll cfg ins now sched st opt [(c, d, p)]).resolutions
        = [(c, formatData (ins (createIncremental (flushWrites (sched.headD 0) opt)
              (stampCreated now d)).1 p))] := by
  intro cfg ins now sched st opt c d p hinc hflag hq
  unfold runCreateAll
  simp only [hflag, Bool.false_eq_true, if_false, List.foldl_nil]
  rw [hq]
  rw [drainQueue]
  simp only [List.headD_eq_head?_getD, allocate, hinc, if_true]
  cases hx : ins (createIncremental (flushWrites (sched.head?.getD 0) opt)
      (stampCreated now d)).1 p <;> simp [hx]

/-- Witness for C5's amended theorem at a concrete input. -/
theorem c5_allocator_failures_swallowed_witness :
    (runCreateAll { serviceName := "posts", incremental := true } (fun d _ => Except.ok d) 0 []
        initState initOptions [(1, { body := "a" }, none)]).resolutions
      = [(1, { resultCode := ResultCode.OK,
               payload := some { body := "a", _id := some "0", created := some 0 },
               errorMessage := none })] := by
  have h := c5_allocator_failures_swallowed { serviceName := "posts", incremental := true }
    (fun d _ => Except.ok d) 0 [] initState initOptions 1 { body := "a" } none rfl rfl rfl
  exact h.trans rfl

/-- C5 counterexample: on a fresh service the counter read fails (the Options
service returns an `Error` envelope for `get('last_id')`), yet the caller's
envelope is `OK`, not `Error` — the allocator failure neither throws nor
surfaces in the result, refuting the claim that such failures propagate as
thrown errors and reach the caller as an `Error` envelope. -/
theorem c5_counterexample :
    (runCreateAll { serviceName := "posts", incremental := true } (fun d _ => Except.ok d) 0 []
        initState { stored := none, getCache := none, pendingWrites := [] }
        [(1, { body := "a" }, none)]).resolutions.map (fun r => r.2.resultCode)
      = [ResultCode.OK] ∧
    (optionsGetLastId { stored := none, getCache := none, pendingWrites := [] }).1.resultCode
      = ResultCode.Error := by
  constructor <;> rfl
